import Mathlib

/-!
Verification of the headphone-pager backend core
(`src/headphone-pager-backend/app/server.py`).

The embedding models the SQLite tables as Lean lists of records and each
HTTP handler as a pure function on an explicit `ServerState`.  Timestamps
(ISO-8601 strings in the source, produced by `dt_to_iso`/`iso_to_dt`) are
modelled as natural numbers with their chronological order; `utcnow()`
becomes an explicit `now : Nat` argument to every operation.  Randomly
generated identifiers (`uuid.uuid4`, `new_token`, `new_pairing_code`) are
modelled as explicit arguments supplied by the caller.  Every SQL statement
is translated row-by-row: `INSERT` appends, `UPDATE ... WHERE` maps a
conditional update over the list, `INSERT OR REPLACE` filters out the
conflicting primary key and appends, and `SELECT ... LIMIT 1` with
`find?`/a fold.  Errors raised through `HTTPException` before any write
become `Except.error` results that leave the state unchanged.
-/

namespace HeadphonePager

/-- The `state` column of the `messages` table. -/
inductive MsgState where
  | queued
  | delivered
  | played
  | failed
  | expired
deriving DecidableEq, Repr

/-- The `type` column of the `messages` table (`Literal["tts", "audio"]`). -/
inductive MsgType where
  | tts
  | audio
deriving DecidableEq, Repr

/-- The `priority` column (`Literal["normal", "urgent"]`). -/
inductive Priority where
  | normal
  | urgent
deriving DecidableEq, Repr

/-- The `status` field of `AckRequest` (`Literal["played", "failed", "expired"]`). -/
inductive AckStatus where
  | played
  | failed
  | expired
deriving DecidableEq, Repr

/-- A row of the `devices` table. -/
structure Device where
  device_id : String
  name : String
  device_token : String
  paired_at : Nat
  last_seen_at : Option Nat
deriving DecidableEq, Repr

/-- A row of the `pairing_codes` table. -/
structure PairingCode where
  code : String
  created_at : Nat
  expires_at : Nat
  used_at : Option Nat
  claimed_device_id : Option String
deriving DecidableEq, Repr

/-- A row of the `messages` table. -/
structure Message where
  message_id : String
  device_id : String
  type : MsgType
  text : Option String
  audio_blob_key : Option String
  priority : Priority
  created_at : Nat
  expires_at : Nat
  state : MsgState
  details : Option String
deriving DecidableEq, Repr

/-- The persistent store: the four tables of `init_db` (for `audio_blobs`
only the primary keys matter to the handlers modelled here). -/
structure ServerState where
  devices : List Device
  pairing_codes : List PairingCode
  messages : List Message
  audio_blobs : List String
deriving DecidableEq, Repr

/-- Constant `PAIRING_CODE_TTL_SECONDS` (env-configurable, default 300). -/
def PAIRING_CODE_TTL_SECONDS : Nat := 300

/-- Constant `DEFAULT_MESSAGE_TTL_SECONDS` (env-configurable, default 600). -/
def DEFAULT_MESSAGE_TTL_SECONDS : Int := 600

/-- Query `SELECT ... FROM pairing_codes WHERE code = ?` (primary-key lookup). -/
def getCode (s : ServerState) (c : String) : Option PairingCode :=
  s.pairing_codes.find? fun r => decide (r.code = c)

/-- Query `SELECT ... FROM devices WHERE device_id = ?` (primary-key lookup). -/
def getDevice (s : ServerState) (d : String) : Option Device :=
  s.devices.find? fun v => decide (v.device_id = d)

/-- Query `SELECT ... FROM messages WHERE message_id = ?` (primary-key lookup). -/
def getMsg (s : ServerState) (mid : String) : Option Message :=
  s.messages.find? fun m => decide (m.message_id = mid)

/-- The uniqueness probe in `pairing_start`:
`SELECT code FROM pairing_codes WHERE code = ? AND used_at IS NULL AND expires_at > ?`
returns a row (note that a *used* or *expired* row with the same code value
does not block reuse of the value). -/
def codeCurrentlyValid (s : ServerState) (c : String) (now : Nat) : Bool :=
  s.pairing_codes.any fun r =>
    decide (r.code = c) && decide (r.used_at = none) && decide (now < r.expires_at)

/-- The bounded retry loop of `pairing_start`: generated candidate codes are
tried in order; the first one whose value is not currently a valid unused
code is kept, and after the last attempt the last candidate is kept
regardless. -/
def pickCode (s : ServerState) (now : Nat) : List String → Option String
  | [] => none
  | [c] => some c
  | c :: c2 :: rest =>
    if codeCurrentlyValid s c now then pickCode s now (c2 :: rest) else some c

/-- Statement `INSERT OR REPLACE INTO pairing_codes ...`: SQLite deletes any row with
the conflicting primary key and inserts the new row. -/
def insertOrReplaceCode (l : List PairingCode) (r : PairingCode) : List PairingCode :=
  (l.filter fun q => decide (¬ q.code = r.code)) ++ [r]

/-- The row inserted by `pairing_start`: created now, unused, expiring after
`PAIRING_CODE_TTL_SECONDS`. -/
def freshPairingRow (c : String) (now : Nat) : PairingCode :=
  { code := c, created_at := now, expires_at := now + PAIRING_CODE_TTL_SECONDS,
    used_at := none, claimed_device_id := none }

/-- Handler `pairing_start` (POST `/api/pairing/start`): pick a code via the retry
loop, then `INSERT OR REPLACE` a fresh unused row for it with
TTL `PAIRING_CODE_TTL_SECONDS`. -/
def pairing_start (cands : List String) (now : Nat) (s : ServerState) :
    ServerState × Option (String × Nat) :=
  match pickCode s now cands with
  | none => (s, none)
  | some c =>
    ({ s with pairing_codes := insertOrReplaceCode s.pairing_codes (freshPairingRow c now) },
     some (c, now + PAIRING_CODE_TTL_SECONDS))

/-- Error outcomes of `pairing_complete`. -/
inductive PairError where
  | InvalidCode
  | CodeAlreadyUsed
  | CodeExpired
deriving DecidableEq, Repr

/-- Statement `UPDATE pairing_codes SET used_at = ?, claimed_device_id = ? WHERE code = ?`,
applied to one row. -/
def markUsed (code : String) (now : Nat) (deviceId : String) (r : PairingCode) : PairingCode :=
  if r.code = code then { r with used_at := some now, claimed_device_id := some deviceId }
  else r

/-- Handler `pairing_complete` (POST `/api/pairing/complete`): look the code up,
reject missing / used / expired codes, otherwise insert a fresh device and
mark the code used with the new device id. -/
def pairing_complete (code deviceName freshId freshToken : String) (now : Nat)
    (s : ServerState) : Except PairError (ServerState × String × String) :=
  match getCode s code with
  | none => .error .InvalidCode
  | some row =>
    if row.used_at ≠ none then .error .CodeAlreadyUsed
    else if row.expires_at ≤ now then .error .CodeExpired
    else
      .ok ({ s with
              devices := s.devices ++
                [{ device_id := freshId, name := deviceName, device_token := freshToken,
                   paired_at := now, last_seen_at := none }],
              pairing_codes := s.pairing_codes.map (markUsed code now freshId) },
           freshId, freshToken)

/-- The `device_id = ?` filter of the device-scoped TTL sweep (absent in the
global sweep). -/
def matchesFilter (deviceFilter : Option String) (m : Message) : Bool :=
  match deviceFilter with
  | none => true
  | some d => decide (m.device_id = d)

/-- One row of
`UPDATE messages SET state = 'expired' WHERE state = 'queued' [AND device_id = ?] AND expires_at <= ?`. -/
def sweepOne (deviceFilter : Option String) (now : Nat) (m : Message) : Message :=
  if m.state = MsgState.queued ∧ matchesFilter deviceFilter m = true ∧ m.expires_at ≤ now
  then { m with state := MsgState.expired }
  else m

/-- Helper `expire_queued_messages`: the TTL sweep, optionally scoped to a device. -/
def expire_queued_messages (deviceFilter : Option String) (now : Nat)
    (s : ServerState) : ServerState :=
  { s with messages := s.messages.map (sweepOne deviceFilter now) }

/-- The `WHERE` clause of the selection in `fetch_next_message`:
`device_id = ? AND state = 'queued' AND expires_at > ?`. -/
def eligibleForFetch (d : String) (now : Nat) (m : Message) : Bool :=
  decide (m.device_id = d) && decide (m.state = MsgState.queued) && decide (now < m.expires_at)

/-- One step of `ORDER BY created_at ASC LIMIT 1`: keep the row with the
smallest `created_at`, the earlier row winning ties. -/
def oldestFirst : Option Message → Message → Option Message
  | none, m => some m
  | some b, m => if m.created_at < b.created_at then some m else some b

/-- Query `SELECT * FROM messages WHERE device_id = ? AND state = 'queued' AND
expires_at > ? ORDER BY created_at ASC LIMIT 1`. -/
def selectNext (msgs : List Message) (d : String) (now : Nat) : Option Message :=
  (msgs.filter (eligibleForFetch d now)).foldl oldestFirst none

/-- Helper `fetch_next_message`: device-scoped TTL sweep, then select the oldest
still-queued unexpired message. -/
def fetch_next_message (d : String) (now : Nat) (s : ServerState) :
    ServerState × Option Message :=
  let s1 := expire_queued_messages (some d) now s
  (s1, selectNext s1.messages d now)

/-- One row of
`UPDATE messages SET state = 'delivered' WHERE message_id = ? AND state = 'queued'`. -/
def deliverOne (mid : String) (m : Message) : Message :=
  if m.message_id = mid ∧ m.state = MsgState.queued
  then { m with state := MsgState.delivered }
  else m

/-- The guarded queued-to-delivered update in `messages_next`. -/
def markDelivered (mid : String) (msgs : List Message) : List Message :=
  msgs.map (deliverOne mid)

/-- The check-and-deliver core of `messages_next`
(GET `/api/devices/{device_id}/messages/next`): `fetch_next_message`, and if
a row is returned, flip it to `delivered` (guarded on still being `queued`)
and return it.  The long-poll wait loop repeats exactly this step after
each wake, so one invocation models one `CHECK` of the protocol. -/
def messages_next (d : String) (now : Nat) (s : ServerState) :
    ServerState × Option Message :=
  match fetch_next_message d now s with
  | (s1, none) => (s1, none)
  | (s1, some row) =>
    ({ s1 with messages := markDelivered row.message_id s1.messages }, some row)

/-- The body of `EnqueueMessageRequest` (POST `/api/devices/{device_id}/messages`).
`expiresAt` is the parsed ISO-8601 instant when present. -/
structure EnqueueMessageRequest where
  type : MsgType
  text : Option String
  audioBlobKey : Option String
  priority : Priority
  ttlSeconds : Option Int
  expiresAt : Option Nat
deriving DecidableEq, Repr

/-- Error outcomes of `enqueue_message`. -/
inductive EnqError where
  | DeviceNotFound
  | MissingText
  | MissingAudioKey
  | BlobNotFound
  | InvalidTTL
  | ExpiryNotInFuture
deriving DecidableEq, Repr

/-- The whitespace characters recognised by Python `str.strip`. -/
def isPySpace (c : Char) : Bool :=
  c == ' ' || c == '\t' || c == '\n' || c == '\r' || c == '\u000B' || c == '\u000C'

/-- Python `str.strip` as used on message text: drop leading and trailing
whitespace. -/
def strip (t : String) : String :=
  ⟨((t.data.dropWhile isPySpace).reverse.dropWhile isPySpace).reverse⟩

/-- The tts payload check `not req.text or not req.text.strip()`:
absent, empty, or whitespace-only text is rejected. -/
def textMissing (t : Option String) : Bool :=
  match t with
  | none => true
  | some t => decide (t = "") || decide (strip t = "")

/-- The audio payload check `not req.audioBlobKey`: absent or empty key. -/
def audioKeyMissing (k : Option String) : Bool :=
  match k with
  | none => true
  | some k => decide (k = "")

/-- The type-specific payload validation of `enqueue_message`, including the
blob-existence lookup for `type=audio`. -/
def payloadError (s : ServerState) (req : EnqueueMessageRequest) : Option EnqError :=
  match req.type, req.audioBlobKey with
  | .tts, _ => if textMissing req.text then some .MissingText else none
  | .audio, none => some .MissingAudioKey
  | .audio, some k =>
    if k = "" then some .MissingAudioKey
    else if s.audio_blobs.contains k then none
    else some .BlobNotFound

/-- The stored `text` column: `req.text.strip() if req.text else None`. -/
def storedText (t : Option String) : Option String :=
  match t with
  | none => none
  | some t => if t = "" then none else some (strip t)

/-- The row inserted by `enqueue_message` on success. -/
def newMessage (d : String) (req : EnqueueMessageRequest) (mid : String)
    (created expires : Nat) : Message :=
  { message_id := mid, device_id := d, type := req.type,
    text := storedText req.text, audio_blob_key := req.audioBlobKey,
    priority := req.priority, created_at := created, expires_at := expires,
    state := MsgState.queued, details := none }

/-- Handler `enqueue_message` (POST `/api/devices/{device_id}/messages`): validate
device, payload, expiry; insert the message in `queued` state; return its id
and expiry.  (`notify_device` touches only the in-memory condition table,
not the store.) -/
def ttlOf (req : EnqueueMessageRequest) : Int :=
  req.ttlSeconds.getD DEFAULT_MESSAGE_TTL_SECONDS

def enqueue_message (d : String) (req : EnqueueMessageRequest) (freshMid : String)
    (now : Nat) (s : ServerState) : Except EnqError (ServerState × String × Nat) :=
  if (getDevice s d).isNone then .error .DeviceNotFound
  else
    match payloadError s req with
    | some e => .error e
    | none =>
      match req.expiresAt with
      | some expires =>
        if expires ≤ now then .error .ExpiryNotInFuture
        else .ok ({ s with messages := s.messages ++ [newMessage d req freshMid now expires] },
                  freshMid, expires)
      | none =>
        if ttlOf req ≤ 0 ∨ 24 * 3600 < ttlOf req then .error .InvalidTTL
        else
          if now + (ttlOf req).toNat ≤ now then .error .ExpiryNotInFuture
          else .ok ({ s with messages :=
                        s.messages ++ [newMessage d req freshMid now (now + (ttlOf req).toNat)] },
                    freshMid, now + (ttlOf req).toNat)

/-- Error outcomes of `ack_message`. -/
inductive AckError where
  | Unauthorized
  | NotFound
deriving DecidableEq, Repr

/-- The direct mapping from requested ack status to message state. -/
def ackState (st : AckStatus) : MsgState :=
  match st with
  | .played => .played
  | .failed => .failed
  | .expired => .expired

/-- One row of `UPDATE messages SET state = ?, details = ? WHERE message_id = ?`. -/
def ackWrite (mid : String) (st : MsgState) (details : Option String) (m : Message) : Message :=
  if m.message_id = mid then { m with state := st, details := details } else m

/-- The `new_state` computation of `ack_message`: the requested status maps
directly to the new state, except that a message already past expiry is
forced to `expired` unless the request is `played`. -/
def ackNewState (m : Message) (now : Nat) (status : AckStatus) : MsgState :=
  if m.expires_at ≤ now ∧ ackState status ≠ MsgState.played
  then MsgState.expired else ackState status

/-- Handler `ack_message` (POST `/api/messages/{message_id}/ack`): authenticate the
bearer token against the owning device, compute whether the message is past
expiry, map the requested status to the new state — forcing `expired` when
the message is past expiry and the request is not `played` — and persist it. -/
def ack_message (mid token : String) (status : AckStatus) (details : Option String)
    (now : Nat) (s : ServerState) : Except AckError (ServerState × MsgState) :=
  if token = "" then .error .Unauthorized
  else
    match getMsg s mid with
    | none => .error .NotFound
    | some msg =>
      match getDevice s msg.device_id with
      | none => .error .Unauthorized
      | some dev =>
        if dev.device_token ≠ token then .error .Unauthorized
        else
          .ok ({ s with messages :=
                   s.messages.map (ackWrite mid (ackNewState msg now status) details) },
               ackNewState msg now status)

/-- One store-mutating request to the server, with the identifiers and codes
that the real handler would generate supplied as data. -/
inductive Op where
  | start (cands : List String)
  | complete (code deviceName freshId freshToken : String)
  | enqueue (d : String) (req : EnqueueMessageRequest) (freshMid : String)
  | fetchNext (d : String)
  | sweepAll
  | ack (mid token : String) (status : AckStatus) (details : Option String)
deriving DecidableEq, Repr

/-- The state transition of one request at one instant.  A handler that
raises an `HTTPException` does so before any write, so an error leaves the
store unchanged. -/
def stepOp (s : ServerState) (p : Op × Nat) : ServerState :=
  match p with
  | (.start cands, now) => (pairing_start cands now s).1
  | (.complete c n fid ftok, now) =>
    match pairing_complete c n fid ftok now s with
    | .ok (s1, _, _) => s1
    | .error _ => s
  | (.enqueue d req mid, now) =>
    match enqueue_message d req mid now s with
    | .ok (s1, _, _) => s1
    | .error _ => s
  | (.fetchNext d, now) => (messages_next d now s).1
  | (.sweepAll, now) => expire_queued_messages none now s
  | (.ack mid tok st det, now) =>
    match ack_message mid tok st det now s with
    | .ok (s1, _) => s1
    | .error _ => s

/-- Run a sequence of timestamped requests. -/
def run (s : ServerState) (ops : List (Op × Nat)) : ServerState :=
  ops.foldl stepOp s

/-- The results of a sequence of `FetchNext` calls for one device. -/
def fetchResults (d : String) : ServerState → List Nat → List (Option Message)
  | _, [] => []
  | s, now :: rest =>
    let p := messages_next d now s
    p.2 :: fetchResults d p.1 rest

/-- The terminal message states. -/
def isTerminal (st : MsgState) : Prop :=
  st = MsgState.played ∨ st = MsgState.failed ∨ st = MsgState.expired

instance (st : MsgState) : Decidable (isTerminal st) := by
  unfold isTerminal
  infer_instance

/-! ### General list lemmas -/

theorem find?_append_left {α : Type} {p : α → Bool} {l1 : List α} (l2 : List α) {a : α}
    (h : l1.find? p = some a) : (l1 ++ l2).find? p = some a := by
  rw [List.find?_append, h]
  rfl

theorem find?_append_right {α : Type} {p : α → Bool} {l1 : List α} (l2 : List α)
    (h : l1.find? p = none) : (l1 ++ l2).find? p = l2.find? p := by
  rw [List.find?_append, h]
  rfl

theorem find?_map_invar {α : Type} {p : α → Bool} (f : α → α) (l : List α)
    (hf : ∀ a, p (f a) = p a) : (l.map f).find? p = (l.find? p).map f := by
  have hpf : p ∘ f = p := funext hf
  rw [List.find?_map, hpf]

theorem find?_filter_of_imp {α : Type} {p q : α → Bool} (l : List α)
    (h : ∀ a, p a = true → q a = true) : (l.filter q).find? p = l.find? p := by
  induction l with
  | nil => rfl
  | cons x xs ih =>
    by_cases hq : q x = true
    · rw [List.filter_cons_of_pos hq]
      by_cases hp : p x = true
      · rw [List.find?_cons_of_pos _ hp, List.find?_cons_of_pos _ hp]
      · rw [List.find?_cons_of_neg _ hp, List.find?_cons_of_neg _ hp, ih]
    · have hp : ¬ p x = true := fun hpx => hq (h x hpx)
      rw [List.filter_cons_of_neg (by simpa using hq), List.find?_cons_of_neg _ hp, ih]

theorem map_eq_self_of_fixed {α : Type} {f : α → α} {l : List α}
    (h : ∀ a ∈ l, f a = a) : l.map f = l := by
  induction l with
  | nil => rfl
  | cons x xs ih =>
    simp only [List.map_cons, h x (List.mem_cons_self x xs)]
    rw [ih fun a ha => h a (List.mem_cons_of_mem x ha)]

/-! ### Lemmas about the fetch selection fold -/

theorem foldl_oldestFirst_isSome (l : List Message) (b : Message) :
    ∃ m, l.foldl oldestFirst (some b) = some m := by
  induction l generalizing b with
  | nil => exact ⟨b, rfl⟩
  | cons x xs ih =>
    simp only [List.foldl_cons, oldestFirst]
    by_cases hx : x.created_at < b.created_at
    · simp only [hx, if_pos]
      exact ih x
    · simp only [hx, if_neg, not_false_iff]
      exact ih b

theorem foldl_oldestFirst_mem (l : List Message) (acc : Option Message) (m : Message)
    (h : l.foldl oldestFirst acc = some m) : acc = some m ∨ m ∈ l := by
  induction l generalizing acc with
  | nil => exact Or.inl h
  | cons x xs ih =>
    simp only [List.foldl_cons] at h
    rcases ih (oldestFirst acc x) h with h1 | h1
    · cases acc with
      | none =>
        simp only [oldestFirst] at h1
        right
        simp [← Option.some.inj h1]
      | some b =>
        simp only [oldestFirst] at h1
        by_cases hx : x.created_at < b.created_at
        · rw [if_pos hx] at h1
          right
          simp [← Option.some.inj h1]
        · rw [if_neg hx] at h1
          exact Or.inl h1
    · exact Or.inr (List.mem_cons_of_mem x h1)

theorem foldl_oldestFirst_min (l : List Message) (acc : Option Message) (m : Message)
    (h : l.foldl oldestFirst acc = some m) :
    (∀ b, acc = some b → m.created_at ≤ b.created_at) ∧
      ∀ x ∈ l, m.created_at ≤ x.created_at := by
  induction l generalizing acc with
  | nil =>
    refine ⟨fun b hb => ?_, fun x hx => absurd hx (List.not_mem_nil x)⟩
    rw [List.foldl_nil] at h
    rw [h] at hb
    cases Option.some.inj hb
    exact le_refl _
  | cons x xs ih =>
    simp only [List.foldl_cons] at h
    obtain ⟨hacc, hall⟩ := ih (oldestFirst acc x) h
    constructor
    · intro b hb
      subst hb
      simp only [oldestFirst] at hacc
      by_cases hx : x.created_at < b.created_at
      · rw [if_pos hx] at hacc
        exact le_of_lt (lt_of_le_of_lt (hacc x rfl) hx)
      · rw [if_neg hx] at hacc
        exact hacc b rfl
    · intro y hy
      rcases List.mem_cons.mp hy with hy | hy
      · subst hy
        cases acc with
        | none => exact hacc y rfl
        | some b =>
          simp only [oldestFirst] at hacc
          by_cases hx : y.created_at < b.created_at
          · rw [if_pos hx] at hacc
            exact hacc y rfl
          · rw [if_neg hx] at hacc
            exact le_trans (hacc b rfl) (le_of_not_lt hx)
      · exact hall y hy

theorem selectNext_mem_eligible {msgs : List Message} {d : String} {now : Nat} {m : Message}
    (h : selectNext msgs d now = some m) :
    m ∈ msgs ∧ eligibleForFetch d now m = true := by
  unfold selectNext at h
  rcases foldl_oldestFirst_mem _ _ _ h with h1 | h1
  · exact absurd h1 (by simp)
  · exact ⟨(List.mem_filter.mp h1).1, (List.mem_filter.mp h1).2⟩

theorem selectNext_isSome {msgs : List Message} {d : String} {now : Nat} {B : Message}
    (hB : B ∈ msgs) (he : eligibleForFetch d now B = true) :
    ∃ m, selectNext msgs d now = some m := by
  unfold selectNext
  have hBf : B ∈ msgs.filter (eligibleForFetch d now) := List.mem_filter.mpr ⟨hB, he⟩
  cases hfe : msgs.filter (eligibleForFetch d now) with
  | nil =>
    rw [hfe] at hBf
    exact absurd hBf (List.not_mem_nil B)
  | cons x xs =>
    simpa only [List.foldl_cons, oldestFirst] using foldl_oldestFirst_isSome xs x

theorem selectNext_min {msgs : List Message} {d : String} {now : Nat} {m x : Message}
    (h : selectNext msgs d now = some m) (hx : x ∈ msgs)
    (he : eligibleForFetch d now x = true) : m.created_at ≤ x.created_at := by
  unfold selectNext at h
  exact (foldl_oldestFirst_min _ _ _ h).2 x (List.mem_filter.mpr ⟨hx, he⟩)

/-! ### Pointwise facts about the row-update functions -/

theorem sweepOne_message_id (df : Option String) (now : Nat) (m : Message) :
    (sweepOne df now m).message_id = m.message_id := by
  unfold sweepOne
  split <;> rfl

theorem sweepOne_of_not_queued {df : Option String} {now : Nat} {m : Message}
    (h : ¬ m.state = MsgState.queued) : sweepOne df now m = m := by
  unfold sweepOne
  rw [if_neg]
  intro hc
  exact h hc.1

theorem sweepOne_of_not_expired {df : Option String} {now : Nat} {m : Message}
    (h : now < m.expires_at) : sweepOne df now m = m := by
  unfold sweepOne
  rw [if_neg]
  intro hc
  exact absurd hc.2.2 (not_le.mpr h)

theorem sweepOne_queued {df : Option String} {now : Nat} {m : Message}
    (h : (sweepOne df now m).state = MsgState.queued) : sweepOne df now m = m := by
  by_cases hq : m.state = MsgState.queued
  · unfold sweepOne at h ⊢
    split at h
    · exact absurd h (by simp)
    · rw [if_neg]
      assumption
  · exact sweepOne_of_not_queued hq

theorem deliverOne_message_id (mid : String) (m : Message) :
    (deliverOne mid m).message_id = m.message_id := by
  unfold deliverOne
  split <;> rfl

theorem deliverOne_of_not_queued {mid : String} {m : Message}
    (h : ¬ m.state = MsgState.queued) : deliverOne mid m = m := by
  unfold deliverOne
  rw [if_neg]
  intro hc
  exact h hc.2

theorem deliverOne_of_ne {mid : String} {m : Message}
    (h : ¬ m.message_id = mid) : deliverOne mid m = m := by
  unfold deliverOne
  rw [if_neg]
  intro hc
  exact h hc.1

theorem deliverOne_queued {mid : String} {m : Message}
    (h : (deliverOne mid m).state = MsgState.queued) : deliverOne mid m = m := by
  unfold deliverOne at h ⊢
  split at h
  · exact absurd h (by simp)
  · rw [if_neg]
    assumption

theorem ackWrite_message_id (mid : String) (st : MsgState) (det : Option String) (m : Message) :
    (ackWrite mid st det m).message_id = m.message_id := by
  unfold ackWrite
  split <;> rfl

theorem ackWrite_of_ne {mid : String} {st : MsgState} {det : Option String} {m : Message}
    (h : ¬ m.message_id = mid) : ackWrite mid st det m = m := by
  unfold ackWrite
  rw [if_neg h]

theorem ackWrite_of_eq {mid : String} {st : MsgState} {det : Option String} {m : Message}
    (h : m.message_id = mid) : ackWrite mid st det m = { m with state := st, details := det } := by
  unfold ackWrite
  rw [if_pos h]

theorem markUsed_code (c : String) (now : Nat) (fid : String) (r : PairingCode) :
    (markUsed c now fid r).code = r.code := by
  unfold markUsed
  split <;> rfl

theorem markUsed_of_ne {c : String} {now : Nat} {fid : String} {r : PairingCode}
    (h : ¬ r.code = c) : markUsed c now fid r = r := by
  unfold markUsed
  rw [if_neg h]

theorem markUsed_of_eq {c : String} {now : Nat} {fid : String} {r : PairingCode}
    (h : r.code = c) :
    markUsed c now fid r = { r with used_at := some now, claimed_device_id := some fid } := by
  unfold markUsed
  rw [if_pos h]

/-! ### Shape lemmas for the operations -/

theorem getCode_some_code {s : ServerState} {c : String} {r : PairingCode}
    (h : getCode s c = some r) : r.code = c := by
  have := List.find?_some h
  simpa using this

theorem getMsg_some_id {s : ServerState} {mid : String} {m : Message}
    (h : getMsg s mid = some m) : m.message_id = mid := by
  have := List.find?_some h
  simpa using this

theorem getMsg_mem {s : ServerState} {mid : String} {m : Message}
    (h : getMsg s mid = some m) : m ∈ s.messages :=
  List.mem_of_find?_eq_some h

theorem pickCode_mem {s : ServerState} {now : Nat} :
    ∀ {cands : List String} {c : String}, pickCode s now cands = some c → c ∈ cands := by
  intro cands
  induction cands with
  | nil => intro c h; exact absurd h (by simp [pickCode])
  | cons x rest ih =>
    intro c h
    cases rest with
    | nil =>
      simp only [pickCode] at h
      cases Option.some.inj h
      exact List.mem_cons_self x []
    | cons y rest2 =>
      simp only [pickCode] at h
      split at h
      · exact List.mem_cons_of_mem x (ih h)
      · cases Option.some.inj h
        exact List.mem_cons_self x (y :: rest2)

theorem pairing_complete_of_used {s : ServerState} {c : String} {r : PairingCode}
    (n fid ftok : String) (now : Nat)
    (hr : getCode s c = some r) (hu : r.used_at ≠ none) :
    pairing_complete c n fid ftok now s = .error .CodeAlreadyUsed := by
  unfold pairing_complete
  rw [hr]
  simp only [hu, if_pos, ne_eq, not_false_iff, if_true]

theorem complete_ok_shape {c n fid ftok : String} {now : Nat} {s s1 : ServerState}
    {a b : String}
    (h : pairing_complete c n fid ftok now s = .ok (s1, a, b)) :
    a = fid ∧ b = ftok ∧ s1.messages = s.messages ∧ s1.audio_blobs = s.audio_blobs ∧
    s1.devices = s.devices ++
      [{ device_id := fid, name := n, device_token := ftok, paired_at := now,
         last_seen_at := none }] ∧
    s1.pairing_codes = s.pairing_codes.map (markUsed c now fid) := by
  unfold pairing_complete at h
  split at h
  · exact absurd h (by simp)
  · split at h
    · exact absurd h (by simp)
    · split at h
      · exact absurd h (by simp)
      · simp only [Except.ok.injEq, Prod.mk.injEq] at h
        obtain ⟨hs, ha, hb⟩ := h
        subst hs
        exact ⟨ha.symm, hb.symm, rfl, rfl, rfl, rfl⟩

theorem enqueue_ok_shape {d : String} {req : EnqueueMessageRequest} {mid : String}
    {now : Nat} {s s1 : ServerState} {x : String} {y : Nat}
    (h : enqueue_message d req mid now s = .ok (s1, x, y)) :
    x = mid ∧ s1.devices = s.devices ∧ s1.pairing_codes = s.pairing_codes ∧
    s1.audio_blobs = s.audio_blobs ∧ now < y ∧
    s1.messages = s.messages ++ [newMessage d req mid now y] := by
  unfold enqueue_message at h
  split at h
  · exact absurd h (by simp)
  · split at h
    · exact absurd h (by simp)
    · split at h
      · split at h
        · exact absurd h (by simp)
        · rename_i hle
          simp only [Except.ok.injEq, Prod.mk.injEq] at h
          obtain ⟨hs, hx, hy⟩ := h
          subst hs
          subst hy
          exact ⟨hx.symm, rfl, rfl, rfl, Nat.lt_of_not_le hle, rfl⟩
      · split at h
        · exact absurd h (by simp)
        · split at h
          · exact absurd h (by simp)
          · rename_i hle
            simp only [Except.ok.injEq, Prod.mk.injEq] at h
            obtain ⟨hs, hx, hy⟩ := h
            subst hs
            subst hy
            exact ⟨hx.symm, rfl, rfl, rfl, Nat.lt_of_not_le hle, rfl⟩

theorem ack_ok_shape {mid tok : String} {st : AckStatus} {det : Option String}
    {now : Nat} {s s1 : ServerState} {st1 : MsgState}
    (h : ack_message mid tok st det now s = .ok (s1, st1)) :
    s1.devices = s.devices ∧ s1.pairing_codes = s.pairing_codes ∧
    s1.audio_blobs = s.audio_blobs ∧ isTerminal st1 ∧
    s1.messages = s.messages.map (ackWrite mid st1 det) := by
  unfold ack_message at h
  split at h
  · exact absurd h (by simp)
  · split at h
    · exact absurd h (by simp)
    · split at h
      · exact absurd h (by simp)
      · split at h
        · exact absurd h (by simp)
        · rename_i msg hmsg dev hdev htok
          simp only [Except.ok.injEq, Prod.mk.injEq] at h
          obtain ⟨hs, hst⟩ := h
          subst hs
          subst hst
          refine ⟨rfl, rfl, rfl, ?_, rfl⟩
          unfold ackNewState
          split
          · exact Or.inr (Or.inr rfl)
          · cases st <;> simp [ackState, isTerminal]

theorem messages_next_fst_shape (d : String) (now : Nat) (s : ServerState) :
    (messages_next d now s).1.devices = s.devices ∧
    (messages_next d now s).1.pairing_codes = s.pairing_codes ∧
    (messages_next d now s).1.audio_blobs = s.audio_blobs := by
  simp only [messages_next, fetch_next_message, expire_queued_messages]
  cases h : selectNext (s.messages.map (sweepOne (some d) now)) d now <;> simp [h]

/-- Whether an `Except` result is a success. -/
def exceptIsOk {ε α : Type} (r : Except ε α) : Bool :=
  match r with
  | .ok _ => true
  | .error _ => false

/-! ### C1: single-use of redeemed pairing codes -/

theorem usedCode_preserved_step (s : ServerState) (c : String) (u : Nat) (p : Op × Nat)
    (hu : ∃ r, getCode s c = some r ∧ r.used_at = some u)
    (hp : ∀ cands now, p = (Op.start cands, now) → c ∉ cands) :
    ∃ r, getCode (stepOp s p) c = some r ∧ r.used_at = some u := by
  obtain ⟨r, hr, hru⟩ := hu
  obtain ⟨op, now⟩ := p
  cases op with
  | start cands =>
    have hc : c ∉ cands := hp cands now rfl
    cases hpick : pickCode s now cands with
    | none =>
      simp only [stepOp, pairing_start, hpick]
      exact ⟨r, hr, hru⟩
    | some c2 =>
      have hc2 : ¬ c2 = c := fun he => hc (he ▸ pickCode_mem hpick)
      refine ⟨r, ?_, hru⟩
      simp only [stepOp, pairing_start, hpick]
      unfold getCode at hr ⊢
      unfold insertOrReplaceCode
      apply find?_append_left
      rw [find?_filter_of_imp]
      · exact hr
      · intro a ha
        simp only [decide_eq_true_eq] at ha ⊢
        simp only [freshPairingRow]
        intro hac
        exact hc2 (by rw [← hac, ha])
  | complete code2 n fid ftok =>
    by_cases hcc : code2 = c
    · subst hcc
      have hne : r.used_at ≠ none := by rw [hru]; exact Option.some_ne_none u
      have herr := pairing_complete_of_used n fid ftok now hr hne
      simp only [stepOp, herr]
      exact ⟨r, hr, hru⟩
    · cases hres : pairing_complete code2 n fid ftok now s with
      | error e =>
        simp only [stepOp, hres]
        exact ⟨r, hr, hru⟩
      | ok t =>
        obtain ⟨s1, a, b⟩ := t
        obtain ⟨_, _, _, _, _, hpc⟩ := complete_ok_shape hres
        refine ⟨r, ?_, hru⟩
        simp only [stepOp, hres]
        unfold getCode at hr ⊢
        rw [hpc, find?_map_invar]
        · rw [hr, Option.map_some', markUsed_of_ne]
          rw [getCode_some_code (s := s) (by unfold getCode; exact hr)]
          exact fun he => hcc he.symm
        · intro a
          simp [markUsed_code]
  | enqueue d req mid =>
    cases hres : enqueue_message d req mid now s with
    | error e =>
      simp only [stepOp, hres]
      exact ⟨r, hr, hru⟩
    | ok t =>
      obtain ⟨s1, x, y⟩ := t
      obtain ⟨_, _, hpc, _, _, _⟩ := enqueue_ok_shape hres
      refine ⟨r, ?_, hru⟩
      simp only [stepOp, hres]
      unfold getCode at hr ⊢
      rw [hpc]
      exact hr
  | fetchNext d =>
    refine ⟨r, ?_, hru⟩
    have hpc := (messages_next_fst_shape d now s).2.1
    simp only [stepOp]
    unfold getCode at hr ⊢
    rw [hpc]
    exact hr
  | sweepAll =>
    refine ⟨r, ?_, hru⟩
    simp only [stepOp, expire_queued_messages]
    unfold getCode at hr ⊢
    exact hr
  | ack mid tok st det =>
    cases hres : ack_message mid tok st det now s with
    | error e =>
      simp only [stepOp, hres]
      exact ⟨r, hr, hru⟩
    | ok t =>
      obtain ⟨s1, st1⟩ := t
      obtain ⟨_, hpc, _, _, _⟩ := ack_ok_shape hres
      refine ⟨r, ?_, hru⟩
      simp only [stepOp, hres]
      unfold getCode at hr ⊢
      rw [hpc]
      exact hr

theorem usedCode_preserved_run (c : String) (u : Nat) :
    ∀ (ops : List (Op × Nat)) (s : ServerState),
      (∃ r, getCode s c = some r ∧ r.used_at = some u) →
      (∀ cands now, (Op.start cands, now) ∈ ops → c ∉ cands) →
      ∃ r, getCode (run s ops) c = some r ∧ r.used_at = some u := by
  intro ops
  induction ops with
  | nil =>
    intro s hu _
    exact hu
  | cons p rest ih =>
    intro s hu hops
    have hstep := usedCode_preserved_step s c u p hu
      (fun cands now hpe => hops cands now (by rw [hpe]; exact List.mem_cons_self _ _))
    exact ih (stepOp s p) hstep
      (fun cands now hmem => hops cands now (List.mem_cons_of_mem p hmem))

/-- A store holding one pairing code `123456` that was redeemed at time 10
by device `d1`. -/
def c1Sbase : ServerState :=
  { devices := [],
    pairing_codes := [{ code := "123456", created_at := 0, expires_at := 300,
                        used_at := some 10, claimed_device_id := some "d1" }],
    messages := [],
    audio_blobs := [] }

/-- C1 counterexample.  The claim fails as stated: starting from a store
whose code `123456` has non-null `used_at`, an intervening `StartPairing`
whose generated candidate happens to be `123456` again passes the
best-effort uniqueness probe (which only excludes *unused unexpired* rows)
and its `INSERT OR REPLACE` overwrites the used row with a fresh unused one;
a subsequent `CompletePairing` with that code then succeeds and creates a
device instead of failing with `CodeAlreadyUsed`. -/
theorem c1_counterexample :
    ((getCode c1Sbase "123456").map PairingCode.used_at = some (some 10)) ∧
    exceptIsOk (pairing_complete "123456" "n2" "d2" "t2" 401
        (stepOp c1Sbase (Op.start ["123456"], 400))) = true ∧
    (stepOp (stepOp c1Sbase (Op.start ["123456"], 400))
        (Op.complete "123456" "n2" "d2" "t2", 401)).devices.length = 1 := by
  refine ⟨by decide, by decide, by decide⟩

/-- C1 (amended).  For every pairing code whose `used_at` is non-null,
and for every sequence of subsequent operations in which no `StartPairing`
call draws the same code value among its generated candidates, the code row
keeps its `used_at`, and every subsequent `CompletePairing` call with that
code fails with `CodeAlreadyUsed` and leaves the store unchanged (so no
device is created).  (The qualification on `StartPairing` is forced by the
counterexample above.) -/
theorem c1_used_code_never_redeemed (s : ServerState) (c : String) (u : Nat)
    (ops : List (Op × Nat))
    (hu : ∃ r, getCode s c = some r ∧ r.used_at = some u)
    (hops : ∀ cands now, (Op.start cands, now) ∈ ops → c ∉ cands) :
    (∃ r, getCode (run s ops) c = some r ∧ r.used_at = some u) ∧
    ∀ deviceName freshId freshToken now,
      pairing_complete c deviceName freshId freshToken now (run s ops) =
        .error .CodeAlreadyUsed ∧
      stepOp (run s ops) (Op.complete c deviceName freshId freshToken, now) =
        run s ops := by
  have h := usedCode_preserved_run c u ops s hu hops
  refine ⟨h, fun n fid ftok now => ?_⟩
  obtain ⟨r, hr, hru⟩ := h
  have hne : r.used_at ≠ none := by rw [hru]; exact Option.some_ne_none u
  have herr := pairing_complete_of_used n fid ftok now hr hne
  exact ⟨herr, by simp only [stepOp, herr]⟩

/-- Witness for `c1_used_code_never_redeemed` at a concrete store and a
concrete interleaving (a global sweep, an unrelated pairing start, and a
failing redemption attempt). -/
theorem c1_used_code_never_redeemed_witness :
    (∃ r, getCode (run c1Sbase [(Op.sweepAll, 5), (Op.start ["654321"], 6)])
        "123456" = some r ∧ r.used_at = some 10) ∧
    ∀ deviceName freshId freshToken now,
      pairing_complete "123456" deviceName freshId freshToken now
          (run c1Sbase [(Op.sweepAll, 5), (Op.start ["654321"], 6)]) =
        .error .CodeAlreadyUsed ∧
      stepOp (run c1Sbase [(Op.sweepAll, 5), (Op.start ["654321"], 6)])
          (Op.complete "123456" deviceName freshId freshToken, now) =
        run c1Sbase [(Op.sweepAll, 5), (Op.start ["654321"], 6)] :=
  c1_used_code_never_redeemed c1Sbase "123456" 10
    [(Op.sweepAll, 5), (Op.start ["654321"], 6)]
    ⟨{ code := "123456", created_at := 0, expires_at := 300,
       used_at := some 10, claimed_device_id := some "d1" }, by decide, by decide⟩
    (by
      intro cands now hmem
      simp only [List.mem_cons, List.mem_singleton, Prod.mk.injEq] at hmem
      rcases hmem with ⟨h1, _⟩ | ⟨h1, _⟩ | h1
      · exact absurd h1 (by simp)
      · cases h1
        decide
      · exact absurd h1 (by simp))

/-! ### C2: terminal message states never revert -/

theorem pairing_start_fst_messages (cands : List String) (now : Nat) (s : ServerState) :
    (pairing_start cands now s).1.messages = s.messages := by
  unfold pairing_start
  cases h : pickCode s now cands <;> simp

/-- Lemma: `messages_next` rewrites the message table pointwise by an id-preserving
function that fixes every row that is not `queued` (and whose output is
`queued` only where it changed nothing). -/
theorem messages_next_fst_messages (d : String) (now : Nat) (s : ServerState) :
    ∃ g : Message → Message,
      (messages_next d now s).1.messages = s.messages.map g ∧
      (∀ x, (g x).message_id = x.message_id) ∧
      (∀ x, ¬ x.state = MsgState.queued → g x = x) ∧
      (∀ x, (g x).state = MsgState.queued → g x = x) := by
  simp only [messages_next, fetch_next_message, expire_queued_messages]
  cases h : selectNext (s.messages.map (sweepOne (some d) now)) d now with
  | none =>
    refine ⟨sweepOne (some d) now, by simp, sweepOne_message_id _ _,
      fun x hx => sweepOne_of_not_queued hx, fun x hx => sweepOne_queued hx⟩
  | some row =>
    refine ⟨fun x => deliverOne row.message_id (sweepOne (some d) now x), ?_, ?_, ?_, ?_⟩
    · simp [markDelivered, List.map_map]
    · intro x
      rw [deliverOne_message_id, sweepOne_message_id]
    · intro x hx
      show deliverOne row.message_id (sweepOne (some d) now x) = x
      rw [sweepOne_of_not_queued hx, deliverOne_of_not_queued hx]
    · intro x hx
      show deliverOne row.message_id (sweepOne (some d) now x) = x
      have hx2 : (deliverOne row.message_id (sweepOne (some d) now x)).state =
          MsgState.queued := hx
      have h1 := deliverOne_queued hx2
      rw [h1] at hx2 ⊢
      exact sweepOne_queued hx2

theorem terminalMsg_preserved_step (s : ServerState) (mid : String) (m : Message)
    (p : Op × Nat)
    (hm : getMsg s mid = some m) (ht : isTerminal m.state) :
    ∃ m2, getMsg (stepOp s p) mid = some m2 ∧ isTerminal m2.state ∧
      ((∀ tok st det now, p ≠ (Op.ack mid tok st det, now)) → m2 = m) := by
  have hmid : m.message_id = mid := getMsg_some_id hm
  obtain ⟨op, now⟩ := p
  cases op with
  | start cands =>
    refine ⟨m, ?_, ht, fun _ => rfl⟩
    have := pairing_start_fst_messages cands now s
    simp only [stepOp]
    unfold getMsg at hm ⊢
    rw [this]
    exact hm
  | complete code2 n fid ftok =>
    cases hres : pairing_complete code2 n fid ftok now s with
    | error e =>
      simp only [stepOp, hres]
      exact ⟨m, hm, ht, fun _ => rfl⟩
    | ok t =>
      obtain ⟨s1, a, b⟩ := t
      obtain ⟨_, _, hmsgs, _, _, _⟩ := complete_ok_shape hres
      refine ⟨m, ?_, ht, fun _ => rfl⟩
      simp only [stepOp, hres]
      unfold getMsg at hm ⊢
      rw [hmsgs]
      exact hm
  | enqueue d req mid2 =>
    cases hres : enqueue_message d req mid2 now s with
    | error e =>
      simp only [stepOp, hres]
      exact ⟨m, hm, ht, fun _ => rfl⟩
    | ok t =>
      obtain ⟨s1, x, y⟩ := t
      obtain ⟨_, _, _, _, _, hmsgs⟩ := enqueue_ok_shape hres
      refine ⟨m, ?_, ht, fun _ => rfl⟩
      simp only [stepOp, hres]
      unfold getMsg at hm ⊢
      rw [hmsgs]
      exact find?_append_left _ hm
  | fetchNext d =>
    obtain ⟨g, hmsgs, hgid, hgfix, _⟩ := messages_next_fst_messages d now s
    refine ⟨m, ?_, ht, fun _ => rfl⟩
    simp only [stepOp]
    unfold getMsg at hm ⊢
    rw [hmsgs, find?_map_invar]
    · rw [hm, Option.map_some']
      rw [hgfix m (by rcases ht with h | h | h <;> rw [h] <;> simp)]
    · intro a
      simp [hgid a]
  | sweepAll =>
    refine ⟨m, ?_, ht, fun _ => rfl⟩
    simp only [stepOp, expire_queued_messages]
    unfold getMsg at hm ⊢
    rw [find?_map_invar]
    · rw [hm, Option.map_some']
      rw [sweepOne_of_not_queued (by rcases ht with h | h | h <;> rw [h] <;> simp)]
    · intro a
      simp [sweepOne_message_id]
  | ack mid2 tok st det =>
    cases hres : ack_message mid2 tok st det now s with
    | error e =>
      simp only [stepOp, hres]
      exact ⟨m, hm, ht, fun _ => rfl⟩
    | ok t =>
      obtain ⟨s1, st1⟩ := t
      obtain ⟨_, _, _, hterm, hmsgs⟩ := ack_ok_shape hres
      by_cases hmm : mid2 = mid
      · subst hmm
        refine ⟨{ m with state := st1, details := det }, ?_, hterm, ?_⟩
        · simp only [stepOp, hres]
          unfold getMsg at hm ⊢
          rw [hmsgs, find?_map_invar]
          · rw [hm, Option.map_some', ackWrite_of_eq hmid]
          · intro a
            simp [ackWrite_message_id]
        · intro hno
          exact absurd rfl (hno tok st det now)
      · refine ⟨m, ?_, ht, fun _ => rfl⟩
        simp only [stepOp, hres]
        unfold getMsg at hm ⊢
        rw [hmsgs, find?_map_invar]
        · rw [hm, Option.map_some', ackWrite_of_ne (by rw [hmid]; exact fun he => hmm he.symm)]
        · intro a
          simp [ackWrite_message_id]

theorem terminalMsg_preserved_run :
    ∀ (ops : List (Op × Nat)) (s : ServerState) (mid : String) (m : Message),
      getMsg s mid = some m → isTerminal m.state →
      (∃ m2, getMsg (run s ops) mid = some m2 ∧ isTerminal m2.state) ∧
      ((∀ tok st det now, (Op.ack mid tok st det, now) ∉ ops) →
        getMsg (run s ops) mid = some m) := by
  intro ops
  induction ops with
  | nil =>
    intro s mid m hm ht
    exact ⟨⟨m, hm, ht⟩, fun _ => hm⟩
  | cons p rest ih =>
    intro s mid m hm ht
    obtain ⟨m2, hm2, ht2, hfix⟩ := terminalMsg_preserved_step s mid m p hm ht
    constructor
    · exact (ih (stepOp s p) mid m2 hm2 ht2).1
    · intro hno
      have hpne : ∀ tok st det now, p ≠ (Op.ack mid tok st det, now) := by
        intro tok st det now hpe
        exact hno tok st det now (by rw [← hpe]; exact List.mem_cons_self _ _)
      have hrest := (ih (stepOp s p) mid m2 hm2 ht2).2
        (fun tok st det now hmem => hno tok st det now (List.mem_cons_of_mem p hmem))
      have hrun : run s (p :: rest) = run (stepOp s p) rest := rfl
      rw [hrun, hrest, hfix hpne]

/-- A store with one paired device `dev1` (token `tok`) and one message `m1`
for it that is already in the terminal state `played`. -/
def c2S : ServerState :=
  { devices := [{ device_id := "dev1", name := "n", device_token := "tok",
                  paired_at := 0, last_seen_at := none }],
    pairing_codes := [],
    messages := [{ message_id := "m1", device_id := "dev1", type := MsgType.tts,
                   text := some "hi", audio_blob_key := none, priority := Priority.normal,
                   created_at := 0, expires_at := 100, state := MsgState.played,
                   details := none }],
    audio_blobs := [] }

/-- C2 counterexample.  The claim fails as stated: message `m1` is in
the terminal state `played`, yet a subsequent `Ack` with the owning device's
valid token and requested status `failed` (before expiry) overwrites the
state to `failed` — the `UPDATE` in `ack_message` is not guarded on the
current state. -/
theorem c2_counterexample :
    ((getMsg c2S "m1").map Message.state = some MsgState.played) ∧
    ((getMsg (stepOp c2S (Op.ack "m1" "tok" AckStatus.failed none, 50)) "m1").map
        Message.state = some MsgState.failed) := by
  refine ⟨by decide, by decide⟩

/-- C2 (amended).  A message in a terminal state (`played`, `failed`,
`expired`) stays in the terminal family under every sequence of subsequent
operations, and if that sequence contains no `Ack` aimed at the message, the
message row is completely unchanged — in particular `FetchNext` and the TTL
sweep never touch it.  (An `Ack` on the message may however re-transition it
to a *different terminal* state, as the counterexample shows, so "never
changes its state" had to be weakened to "never leaves the terminal family,
and is only changed at all by Ack".) -/
theorem c2_terminal_no_revert (s : ServerState) (mid : String) (m : Message)
    (ops : List (Op × Nat))
    (hm : getMsg s mid = some m) (ht : isTerminal m.state) :
    (∃ m2, getMsg (run s ops) mid = some m2 ∧ isTerminal m2.state) ∧
    ((∀ tok st det now, (Op.ack mid tok st det, now) ∉ ops) →
      getMsg (run s ops) mid = some m) :=
  terminalMsg_preserved_run ops s mid m hm ht

/-- Witness for `c2_terminal_no_revert` at a concrete store and a concrete
operation sequence (a fetch, a global sweep and an ack of a *different*
message). -/
theorem c2_terminal_no_revert_witness :
    (∃ m2, getMsg (run c2S [(Op.fetchNext "dev1", 60), (Op.sweepAll, 70),
        (Op.ack "other" "tok" AckStatus.played none, 80)]) "m1" = some m2 ∧
      isTerminal m2.state) ∧
    ((∀ tok st det now, (Op.ack "m1" tok st det, now) ∉
        ([(Op.fetchNext "dev1", 60), (Op.sweepAll, 70),
          (Op.ack "other" "tok" AckStatus.played none, 80)] : List (Op × Nat))) →
      getMsg (run c2S [(Op.fetchNext "dev1", 60), (Op.sweepAll, 70),
        (Op.ack "other" "tok" AckStatus.played none, 80)]) "m1" =
        some { message_id := "m1", device_id := "dev1", type := MsgType.tts,
               text := some "hi", audio_blob_key := none, priority := Priority.normal,
               created_at := 0, expires_at := 100, state := MsgState.played,
               details := none }) :=
  c2_terminal_no_revert c2S "m1"
    { message_id := "m1", device_id := "dev1", type := MsgType.tts,
      text := some "hi", audio_blob_key := none, priority := Priority.normal,
      created_at := 0, expires_at := 100, state := MsgState.played, details := none }
    [(Op.fetchNext "dev1", 60), (Op.sweepAll, 70),
     (Op.ack "other" "tok" AckStatus.played none, 80)]
    (by decide) (by decide)

/-! ### C3 and C10: the ack state machine -/

/-- The state returned by a successful ack, if any. -/
def ackResultState {ε : Type} (r : Except ε (ServerState × MsgState)) : Option MsgState :=
  match r with
  | .ok (_, st) => some st
  | .error _ => none

/-- Successful-path equation for `ack_message`: with a non-empty token that
matches the owning device's token, the result is `ok` with the reconciled
state written through. -/
theorem ack_message_ok {s : ServerState} {mid : String} {m : Message} {dev : Device}
    (tok : String) (st : AckStatus) (det : Option String) (now : Nat)
    (hm : getMsg s mid = some m) (hd : getDevice s m.device_id = some dev)
    (htok : dev.device_token = tok) (hne : ¬ tok = "") :
    ack_message mid tok st det now s =
      .ok ({ s with messages := s.messages.map (ackWrite mid (ackNewState m now st) det) },
           ackNewState m now st) := by
  unfold ack_message
  rw [if_neg hne]
  simp only [hm, hd]
  rw [if_neg (fun hne2 => hne2 htok)]

theorem ack_ok_written {mid tok : String} {st : AckStatus} {det : Option String}
    {now : Nat} {s s1 : ServerState} {st1 : MsgState}
    (h : ack_message mid tok st det now s = .ok (s1, st1)) :
    ∀ m2 ∈ s1.messages, m2.message_id = mid → m2.state = st1 := by
  obtain ⟨_, _, _, _, hmsgs⟩ := ack_ok_shape h
  intro m2 hmem hid
  rw [hmsgs] at hmem
  obtain ⟨a, _, hae⟩ := List.mem_map.mp hmem
  by_cases ha : a.message_id = mid
  · rw [← hae, ackWrite_of_eq ha]
  · rw [← hae, ackWrite_of_ne ha] at hid
    exact absurd hid ha

/-- C3.  `Ack` reconciles the requested status with expiry exactly as
specified: on a message at or past `expires_at`, requested `failed` or
`expired` both persist `expired` while requested `played` persists `played`;
on a message strictly before expiry the requested status is persisted
verbatim; and in every successful case the returned state equals the state
written to every row with that message id. -/
theorem c3_ack_expiry_reconciliation (s : ServerState) (mid : String) (m : Message)
    (dev : Device) (tok : String) (det : Option String) (now : Nat)
    (hm : getMsg s mid = some m) (hd : getDevice s m.device_id = some dev)
    (htok : dev.device_token = tok) (hne : ¬ tok = "") :
    (m.expires_at ≤ now →
      ackResultState (ack_message mid tok AckStatus.failed det now s) =
        some MsgState.expired ∧
      ackResultState (ack_message mid tok AckStatus.expired det now s) =
        some MsgState.expired ∧
      ackResultState (ack_message mid tok AckStatus.played det now s) =
        some MsgState.played) ∧
    (now < m.expires_at →
      ∀ st, ackResultState (ack_message mid tok st det now s) = some (ackState st)) ∧
    (∀ st s1 st1, ack_message mid tok st det now s = .ok (s1, st1) →
      ∀ m2 ∈ s1.messages, m2.message_id = mid → m2.state = st1) := by
  refine ⟨fun hexp => ?_, fun hlt st => ?_, fun st s1 st1 h => ack_ok_written h⟩
  · rw [ack_message_ok tok .failed det now hm hd htok hne,
      ack_message_ok tok .expired det now hm hd htok hne,
      ack_message_ok tok .played det now hm hd htok hne]
    refine ⟨?_, ?_, ?_⟩ <;> simp [ackResultState, ackNewState, ackState, hexp]
  · rw [ack_message_ok tok st det now hm hd htok hne]
    have hnexp : ¬ m.expires_at ≤ now := not_le.mpr hlt
    simp [ackResultState, ackNewState, hnexp]

/-- A store with device `dev1` (token `tok`) and a still-`queued` unexpired
message `m1`, used to witness the ack theorems. -/
def c3S : ServerState :=
  { devices := [{ device_id := "dev1", name := "n", device_token := "tok",
                  paired_at := 0, last_seen_at := none }],
    pairing_codes := [],
    messages := [{ message_id := "m1", device_id := "dev1", type := MsgType.tts,
                   text := some "hello", audio_blob_key := none,
                   priority := Priority.normal, created_at := 0, expires_at := 100,
                   state := MsgState.queued, details := none }],
    audio_blobs := [] }

/-- Witness for `c3_ack_expiry_reconciliation` at the concrete store `c3S`
and time 150 (past the message's expiry 100). -/
theorem c3_ack_expiry_reconciliation_witness :
    (((100 : Nat) ≤ 150 →
      ackResultState (ack_message "m1" "tok" AckStatus.failed none 150 c3S) =
        some MsgState.expired ∧
      ackResultState (ack_message "m1" "tok" AckStatus.expired none 150 c3S) =
        some MsgState.expired ∧
      ackResultState (ack_message "m1" "tok" AckStatus.played none 150 c3S) =
        some MsgState.played) ∧
    ((150 : Nat) < 100 →
      ∀ st, ackResultState (ack_message "m1" "tok" st none 150 c3S) = some (ackState st)) ∧
    (∀ st s1 st1, ack_message "m1" "tok" st none 150 c3S = .ok (s1, st1) →
      ∀ m2 ∈ s1.messages, m2.message_id = "m1" → m2.state = st1)) :=
  c3_ack_expiry_reconciliation c3S "m1"
    { message_id := "m1", device_id := "dev1", type := MsgType.tts,
      text := some "hello", audio_blob_key := none, priority := Priority.normal,
      created_at := 0, expires_at := 100, state := MsgState.queued, details := none }
    { device_id := "dev1", name := "n", device_token := "tok",
      paired_at := 0, last_seen_at := none }
    "tok" none 150 (by decide) (by decide) (by decide) (by decide)

/-- C10.  `Ack` does not require prior delivery: on a message that is
still `queued` and not past expiry, an ack by the owning device with any
requested status succeeds and moves the message directly from `queued` to
the requested terminal state, never passing through `delivered`. -/
theorem c10_ack_from_queued (s : ServerState) (mid : String) (m : Message) (dev : Device)
    (tok : String) (det : Option String) (now : Nat) (st : AckStatus)
    (hm : getMsg s mid = some m) (hq : m.state = MsgState.queued)
    (hexp : now < m.expires_at)
    (hd : getDevice s m.device_id = some dev) (htok : dev.device_token = tok)
    (hne : ¬ tok = "") :
    ∃ s1, ack_message mid tok st det now s = .ok (s1, ackState st) ∧
      isTerminal (ackState st) ∧
      ∀ m2 ∈ s1.messages, m2.message_id = mid → m2.state = ackState st := by
  have hok := ack_message_ok tok st det now hm hd htok hne
  have hns : ackNewState m now st = ackState st := by
    unfold ackNewState
    rw [if_neg]
    intro hc
    exact absurd hc.1 (not_le.mpr hexp)
  rw [hns] at hok
  refine ⟨_, hok, ?_, ack_ok_written hok⟩
  cases st <;> simp [ackState, isTerminal]

/-- Witness for `c10_ack_from_queued`: at `c3S`, time 50 (before expiry),
acking the queued message `m1` as `failed` succeeds and writes `failed`. -/
theorem c10_ack_from_queued_witness :
    ∃ s1, ack_message "m1" "tok" AckStatus.failed (some "low battery") 50 c3S =
        .ok (s1, ackState AckStatus.failed) ∧
      isTerminal (ackState AckStatus.failed) ∧
      ∀ m2 ∈ s1.messages, m2.message_id = "m1" → m2.state = ackState AckStatus.failed :=
  c10_ack_from_queued c3S "m1"
    { message_id := "m1", device_id := "dev1", type := MsgType.tts,
      text := some "hello", audio_blob_key := none, priority := Priority.normal,
      created_at := 0, expires_at := 100, state := MsgState.queued, details := none }
    { device_id := "dev1", name := "n", device_token := "tok",
      paired_at := 0, last_seen_at := none }
    "tok" (some "low battery") 50 AckStatus.failed
    (by decide) (by decide) (by decide) (by decide) (by decide) (by decide)

/-! ### C8: CompletePairing case analysis -/

/-- C8.  `CompletePairing` fails with `InvalidCode` when no row with the
code exists, `CodeAlreadyUsed` when `used_at` is set, and `CodeExpired` when
the unused code is at or past `expires_at`; on success it appends a device
with the freshly generated id and token and marks the code row used with
that device id; and every failure leaves the whole store unchanged (no
device created, code row untouched). -/
theorem c8_pairing_complete_cases (s : ServerState)
    (code deviceName freshId freshToken : String) (now : Nat) :
    (getCode s code = none →
      pairing_complete code deviceName freshId freshToken now s = .error .InvalidCode) ∧
    (∀ r, getCode s code = some r → r.used_at ≠ none →
      pairing_complete code deviceName freshId freshToken now s =
        .error .CodeAlreadyUsed) ∧
    (∀ r, getCode s code = some r → r.used_at = none → r.expires_at ≤ now →
      pairing_complete code deviceName freshId freshToken now s = .error .CodeExpired) ∧
    (∀ r, getCode s code = some r → r.used_at = none → now < r.expires_at →
      pairing_complete code deviceName freshId freshToken now s =
        .ok ({ s with
                devices := s.devices ++
                  [{ device_id := freshId, name := deviceName,
                     device_token := freshToken, paired_at := now,
                     last_seen_at := none }],
                pairing_codes := s.pairing_codes.map (markUsed code now freshId) },
             freshId, freshToken) ∧
      ∃ r2, getCode ({ s with
                devices := s.devices ++
                  [{ device_id := freshId, name := deviceName,
                     device_token := freshToken, paired_at := now,
                     last_seen_at := none }],
                pairing_codes := s.pairing_codes.map (markUsed code now freshId) })
            code = some r2 ∧
        r2.used_at = some now ∧ r2.claimed_device_id = some freshId) ∧
    (∀ e, pairing_complete code deviceName freshId freshToken now s = .error e →
      stepOp s (Op.complete code deviceName freshId freshToken, now) = s) := by
  refine ⟨fun h0 => ?_, fun r hr hu => pairing_complete_of_used _ _ _ _ hr hu,
    fun r hr hu hexp => ?_, fun r hr hu hlt => ⟨?_, ?_⟩, fun e he => ?_⟩
  · unfold pairing_complete
    rw [h0]
  · unfold pairing_complete
    rw [hr]
    simp [hu, hexp]
  · unfold pairing_complete
    rw [hr]
    simp [hu, not_le.mpr hlt]
  · refine ⟨{ r with used_at := some now, claimed_device_id := some freshId }, ?_, rfl, rfl⟩
    unfold getCode
    show (s.pairing_codes.map (markUsed code now freshId)).find?
        (fun q => decide (q.code = code)) = _
    rw [find?_map_invar]
    · unfold getCode at hr
      rw [hr, Option.map_some', markUsed_of_eq (getCode_some_code (s := s) hr)]
    · intro a
      simp [markUsed_code]
  · simp only [stepOp, he]

/-- A store holding one unused pairing code `777000` expiring at 300, used
to witness `c8_pairing_complete_cases`. -/
def c8S : ServerState :=
  { devices := [],
    pairing_codes := [{ code := "777000", created_at := 0, expires_at := 300,
                        used_at := none, claimed_device_id := none }],
    messages := [],
    audio_blobs := [] }

/-- Witness for `c8_pairing_complete_cases` at the concrete store `c8S`
(the theorem itself has no top-level hypotheses; its conditional conjuncts
are exercised at the unused, unexpired code `777000`). -/
theorem c8_pairing_complete_cases_witness :
    pairing_complete "777000" "myphones" "d9" "t9" 100 c8S =
      .ok ({ c8S with
              devices := c8S.devices ++
                [{ device_id := "d9", name := "myphones", device_token := "t9",
                   paired_at := 100, last_seen_at := none }],
              pairing_codes := c8S.pairing_codes.map (markUsed "777000" 100 "d9") },
           "d9", "t9") ∧
    pairing_complete "000000" "myphones" "d9" "t9" 100 c8S = .error .InvalidCode :=
  ⟨((c8_pairing_complete_cases c8S "777000" "myphones" "d9" "t9" 100).2.2.2.1
      { code := "777000", created_at := 0, expires_at := 300,
        used_at := none, claimed_device_id := none }
      (by decide) (by decide) (by decide)).1,
   (c8_pairing_complete_cases c8S "000000" "myphones" "d9" "t9" 100).1 (by decide)⟩

/-! ### Path equations for enqueue_message -/

theorem enqueue_err_device {s : ServerState} {d : String} {req : EnqueueMessageRequest}
    {mid : String} {now : Nat} (h0 : getDevice s d = none) :
    enqueue_message d req mid now s = .error .DeviceNotFound := by
  unfold enqueue_message
  rw [if_pos (by simp [h0])]

theorem enqueue_payload_err {s : ServerState} {d : String} {req : EnqueueMessageRequest}
    {mid : String} {now : Nat} {e : EnqError}
    (hdev : getDevice s d ≠ none) (hpe : payloadError s req = some e) :
    enqueue_message d req mid now s = .error e := by
  unfold enqueue_message
  rw [if_neg (by simp [Option.isNone_iff_eq_none, hdev])]
  simp only [hpe]

theorem enqueue_err_expiry {s : ServerState} {d : String} {req : EnqueueMessageRequest}
    {mid : String} {now e : Nat}
    (hdev : getDevice s d ≠ none) (hpe : payloadError s req = none)
    (he : req.expiresAt = some e) (hle : e ≤ now) :
    enqueue_message d req mid now s = .error .ExpiryNotInFuture := by
  unfold enqueue_message
  rw [if_neg (by simp [Option.isNone_iff_eq_none, hdev])]
  simp only [hpe, he]
  rw [if_pos hle]

theorem enqueue_ok_explicit {s : ServerState} {d : String} {req : EnqueueMessageRequest}
    {mid : String} {now e : Nat}
    (hdev : getDevice s d ≠ none) (hpe : payloadError s req = none)
    (he : req.expiresAt = some e) (hlt : now < e) :
    enqueue_message d req mid now s =
      .ok ({ s with messages := s.messages ++ [newMessage d req mid now e] }, mid, e) := by
  unfold enqueue_message
  rw [if_neg (by simp [Option.isNone_iff_eq_none, hdev])]
  simp only [hpe, he]
  rw [if_neg (not_le.mpr hlt)]

theorem enqueue_err_ttl {s : ServerState} {d : String} {req : EnqueueMessageRequest}
    {mid : String} {now : Nat}
    (hdev : getDevice s d ≠ none) (hpe : payloadError s req = none)
    (hexp : req.expiresAt = none) (httl : ttlOf req ≤ 0 ∨ 86400 < ttlOf req) :
    enqueue_message d req mid now s = .error .InvalidTTL := by
  unfold enqueue_message
  rw [if_neg (by simp [Option.isNone_iff_eq_none, hdev])]
  simp only [hpe, hexp]
  rw [if_pos (by omega)]

theorem enqueue_ok_ttl {s : ServerState} {d : String} {req : EnqueueMessageRequest}
    {mid : String} {now : Nat}
    (hdev : getDevice s d ≠ none) (hpe : payloadError s req = none)
    (hexp : req.expiresAt = none) (h0 : 0 < ttlOf req) (h86 : ttlOf req ≤ 86400) :
    enqueue_message d req mid now s =
      .ok ({ s with messages :=
               s.messages ++ [newMessage d req mid now (now + (ttlOf req).toNat)] },
           mid, now + (ttlOf req).toNat) := by
  unfold enqueue_message
  rw [if_neg (by simp [Option.isNone_iff_eq_none, hdev])]
  simp only [hpe, hexp]
  rw [if_neg (by omega), if_neg (by omega)]

/-! ### C7: enqueue validation -/

/-- C7.  `Enqueue` rejects without inserting when: the device is missing
(`DeviceNotFound`); `type=tts` with missing (or blank) text (`MissingText`);
`type=audio` with missing key (`MissingAudioKey`) or an unknown blob key
(`BlobNotFound`); a TTL outside (0, 86400] on the TTL path (`InvalidTTL`);
or a computed expiry not strictly after creation (`ExpiryNotInFuture`).
Otherwise it appends the message in `queued` state and returns its id and
expiry (both on the explicit-expiry path and on the TTL path). -/
theorem c7_enqueue_validation (s : ServerState) (d : String) (req : EnqueueMessageRequest)
    (mid : String) (now : Nat) :
    (getDevice s d = none →
      enqueue_message d req mid now s = .error .DeviceNotFound) ∧
    (getDevice s d ≠ none → req.type = MsgType.tts → textMissing req.text = true →
      enqueue_message d req mid now s = .error .MissingText) ∧
    (getDevice s d ≠ none → req.type = MsgType.audio →
      audioKeyMissing req.audioBlobKey = true →
      enqueue_message d req mid now s = .error .MissingAudioKey) ∧
    (getDevice s d ≠ none → req.type = MsgType.audio → ∀ k, req.audioBlobKey = some k →
      ¬ k = "" → s.audio_blobs.contains k = false →
      enqueue_message d req mid now s = .error .BlobNotFound) ∧
    (getDevice s d ≠ none → payloadError s req = none → req.expiresAt = none →
      (ttlOf req ≤ 0 ∨ 86400 < ttlOf req) →
      enqueue_message d req mid now s = .error .InvalidTTL) ∧
    (getDevice s d ≠ none → payloadError s req = none → ∀ e, req.expiresAt = some e →
      e ≤ now → enqueue_message d req mid now s = .error .ExpiryNotInFuture) ∧
    (getDevice s d ≠ none → payloadError s req = none → ∀ e, req.expiresAt = some e →
      now < e → enqueue_message d req mid now s =
        .ok ({ s with messages := s.messages ++ [newMessage d req mid now e] }, mid, e)) ∧
    (getDevice s d ≠ none → payloadError s req = none → req.expiresAt = none →
      0 < ttlOf req → ttlOf req ≤ 86400 →
      enqueue_message d req mid now s =
        .ok ({ s with messages :=
                 s.messages ++ [newMessage d req mid now (now + (ttlOf req).toNat)] },
             mid, now + (ttlOf req).toNat)) := by
  refine ⟨fun h0 => enqueue_err_device h0,
    fun hdev htts htm => enqueue_payload_err hdev ?_,
    fun hdev haud hkm => enqueue_payload_err hdev ?_,
    fun hdev haud k hk hke hcon => enqueue_payload_err hdev ?_,
    fun hdev hpe hexp httl => enqueue_err_ttl hdev hpe hexp httl,
    fun hdev hpe e he hle => enqueue_err_expiry hdev hpe he hle,
    fun hdev hpe e he hlt => enqueue_ok_explicit hdev hpe he hlt,
    fun hdev hpe hexp h0 h86 => enqueue_ok_ttl hdev hpe hexp h0 h86⟩
  · unfold payloadError
    rw [htts]
    simp [htm]
  · unfold payloadError
    cases hab : req.audioBlobKey with
    | none => rw [haud]
    | some k =>
      rw [haud]
      simp only [audioKeyMissing, hab, decide_eq_true_eq] at hkm
      simp [hkm]
  · unfold payloadError
    simp only [haud, hk]
    rw [if_neg hke, hcon]
    simp

/-- A store with a paired device `dev1` and one stored audio blob `b_1`,
used to witness the enqueue theorems. -/
def c7S : ServerState :=
  { devices := [{ device_id := "dev1", name := "n", device_token := "tok",
                  paired_at := 0, last_seen_at := none }],
    pairing_codes := [],
    messages := [],
    audio_blobs := ["b_1"] }

/-- A valid tts enqueue request with a 600-second TTL. -/
def c7req : EnqueueMessageRequest :=
  { type := MsgType.tts, text := some "take a break", audioBlobKey := none,
    priority := Priority.urgent, ttlSeconds := some 600, expiresAt := none }

/-- Witness for `c7_enqueue_validation` at concrete inputs: an unknown
device is rejected, blank tts text is rejected, and the valid request
inserts and returns id and expiry. -/
theorem c7_enqueue_validation_witness :
    enqueue_message "ghost" c7req "mX" 10 c7S = .error .DeviceNotFound ∧
    enqueue_message "dev1" { c7req with text := some "   " } "mX" 10 c7S =
      .error .MissingText ∧
    enqueue_message "dev1" c7req "mX" 10 c7S =
      .ok ({ c7S with messages :=
               c7S.messages ++ [newMessage "dev1" c7req "mX" 10 (10 + (ttlOf c7req).toNat)] },
           "mX", 10 + (ttlOf c7req).toNat) :=
  ⟨(c7_enqueue_validation c7S "ghost" c7req "mX" 10).1 (by decide),
   (c7_enqueue_validation c7S "dev1" { c7req with text := some "   " } "mX" 10).2.1
     (by decide) (by decide) (by decide),
   (c7_enqueue_validation c7S "dev1" c7req "mX" 10).2.2.2.2.2.2.2
     (by decide) (by decide) (by decide) (by decide) (by decide)⟩

/-! ### C9: an explicit expiresAt bypasses the TTL bound -/

/-- C9.  When an explicit `expiresAt` is supplied, the (0, 86400] bound
is not applied: the supplied `ttlSeconds` is never consulted (the result is
identical for every `ttlSeconds` value), every instant strictly later than
the creation time is accepted — arbitrarily far in the future — and an
instant at or before creation fails with `ExpiryNotInFuture` (not
`InvalidTTL`). -/
theorem c9_explicit_expiry_unbounded (s : ServerState) (d : String)
    (req : EnqueueMessageRequest) (mid : String) (now e : Nat)
    (he : req.expiresAt = some e) :
    (∀ x y : Option Int,
      enqueue_message d { req with ttlSeconds := x } mid now s =
        enqueue_message d { req with ttlSeconds := y } mid now s) ∧
    (getDevice s d ≠ none → payloadError s req = none → now < e →
      enqueue_message d req mid now s =
        .ok ({ s with messages := s.messages ++ [newMessage d req mid now e] }, mid, e)) ∧
    (getDevice s d ≠ none → payloadError s req = none → e ≤ now →
      enqueue_message d req mid now s = .error .ExpiryNotInFuture) := by
  refine ⟨fun x y => ?_, fun hdev hpe hlt => enqueue_ok_explicit hdev hpe he hlt,
    fun hdev hpe hle => enqueue_err_expiry hdev hpe he hle⟩
  by_cases hdev : getDevice s d = none
  · rw [enqueue_err_device hdev, enqueue_err_device hdev]
  · have hre : ∀ z : Option Int,
        payloadError s { req with ttlSeconds := z } = payloadError s req := fun z => rfl
    cases hpe : payloadError s req with
    | some err =>
      rw [enqueue_payload_err hdev ((hre x).trans hpe),
        enqueue_payload_err hdev ((hre y).trans hpe)]
    | none =>
      have hrex : ({ req with ttlSeconds := x } : EnqueueMessageRequest).expiresAt =
          some e := he
      have hrey : ({ req with ttlSeconds := y } : EnqueueMessageRequest).expiresAt =
          some e := he
      by_cases hlt : now < e
      · rw [enqueue_ok_explicit hdev ((hre x).trans hpe) hrex hlt,
          enqueue_ok_explicit hdev ((hre y).trans hpe) hrey hlt]
        rfl
      · rw [enqueue_err_expiry hdev ((hre x).trans hpe) hrex (not_lt.mp hlt),
          enqueue_err_expiry hdev ((hre y).trans hpe) hrey (not_lt.mp hlt)]

/-- Witness for `c9_explicit_expiry_unbounded`: a request with explicit
expiry 200000 (more than 24 hours after creation time 10) and a wildly
invalid `ttlSeconds` of -5 still succeeds, ignoring the TTL. -/
theorem c9_explicit_expiry_unbounded_witness :
    (∀ x y : Option Int,
      enqueue_message "dev1"
          { c7req with expiresAt := some 200000, ttlSeconds := x } "mY" 10 c7S =
        enqueue_message "dev1"
          { c7req with expiresAt := some 200000, ttlSeconds := y } "mY" 10 c7S) ∧
    (getDevice c7S "dev1" ≠ none →
      payloadError c7S { c7req with expiresAt := some 200000, ttlSeconds := some (-5) } =
        none →
      (10 : Nat) < 200000 →
      enqueue_message "dev1" { c7req with expiresAt := some 200000, ttlSeconds := some (-5) }
          "mY" 10 c7S =
        .ok ({ c7S with messages := c7S.messages ++
                 [newMessage "dev1"
                   { c7req with expiresAt := some 200000, ttlSeconds := some (-5) }
                   "mY" 10 200000] },
             "mY", 200000)) ∧
    (getDevice c7S "dev1" ≠ none →
      payloadError c7S { c7req with expiresAt := some 200000, ttlSeconds := some (-5) } =
        none →
      (200000 : Nat) ≤ 10 →
      enqueue_message "dev1" { c7req with expiresAt := some 200000, ttlSeconds := some (-5) }
          "mY" 10 c7S = .error .ExpiryNotInFuture) :=
  c9_explicit_expiry_unbounded c7S "dev1"
    { c7req with expiresAt := some 200000, ttlSeconds := some (-5) } "mY" 10 200000
    (by decide)

/-! ### Further equations for the fetch path -/

theorem messages_next_snd (d : String) (now : Nat) (s : ServerState) :
    (messages_next d now s).2 =
      selectNext (s.messages.map (sweepOne (some d) now)) d now := by
  simp only [messages_next, fetch_next_message, expire_queued_messages]
  cases h : selectNext (s.messages.map (sweepOne (some d) now)) d now <;> simp [h]

theorem messages_next_eq_some {d : String} {now : Nat} {s : ServerState} {row : Message}
    (hsel : selectNext (s.messages.map (sweepOne (some d) now)) d now = some row) :
    messages_next d now s =
      ({ s with messages :=
          markDelivered row.message_id (s.messages.map (sweepOne (some d) now)) },
       some row) := by
  simp only [messages_next, fetch_next_message, expire_queued_messages, hsel]

theorem eligible_iff {d : String} {now : Nat} {m : Message} :
    eligibleForFetch d now m = true ↔
      m.device_id = d ∧ m.state = MsgState.queued ∧ now < m.expires_at := by
  simp [eligibleForFetch, and_assoc]

theorem selectNext_unique {msgs : List Message} {d : String} {now : Nat} {B : Message}
    (hB : B ∈ msgs) (he : eligibleForFetch d now B = true)
    (honly : ∀ x ∈ msgs, eligibleForFetch d now x = true → x = B) :
    selectNext msgs d now = some B := by
  obtain ⟨m, hm⟩ := selectNext_isSome hB he
  obtain ⟨hmem, hel⟩ := selectNext_mem_eligible hm
  rw [hm, honly m hmem hel]

theorem selectNext_pair {msgs : List Message} {d : String} {now : Nat} {A B : Message}
    (hA : A ∈ msgs) (heA : eligibleForFetch d now A = true)
    (hcr : A.created_at < B.created_at)
    (honly : ∀ x ∈ msgs, eligibleForFetch d now x = true → x = A ∨ x = B) :
    selectNext msgs d now = some A := by
  obtain ⟨m, hm⟩ := selectNext_isSome hA heA
  obtain ⟨hmem, hel⟩ := selectNext_mem_eligible hm
  have hmin := selectNext_min hm hA heA
  rcases honly m hmem hel with h | h
  · rw [hm, h]
  · subst h
    exact absurd hmin (not_le.mpr hcr)

/-! ### C5: expired queued messages are swept, never served -/

/-- C5.  A message that is still `queued` but whose `expires_at` is at
or before the current time is never the row returned by `FetchNext` for its
device, and after `FetchNext` runs (with or without another message being
returned) the row is present with state `expired`. -/
theorem c5_expired_queued_swept (s : ServerState) (d : String) (now : Nat) (m : Message)
    (hm : m ∈ s.messages) (hq : m.state = MsgState.queued) (hd : m.device_id = d)
    (he : m.expires_at ≤ now) :
    (messages_next d now s).2 ≠ some m ∧
    { m with state := MsgState.expired } ∈ (messages_next d now s).1.messages := by
  have hsw : sweepOne (some d) now m = { m with state := MsgState.expired } := by
    unfold sweepOne
    rw [if_pos ⟨hq, by simp [matchesFilter, hd], he⟩]
  constructor
  · rw [messages_next_snd]
    intro hsel
    obtain ⟨_, hel⟩ := selectNext_mem_eligible hsel
    obtain ⟨_, _, hlt⟩ := eligible_iff.mp hel
    exact absurd hlt (not_lt.mpr he)
  · simp only [messages_next, fetch_next_message, expire_queued_messages]
    have h1 : { m with state := MsgState.expired } ∈
        s.messages.map (sweepOne (some d) now) := by
      have := List.mem_map_of_mem (sweepOne (some d) now) hm
      rwa [hsw] at this
    cases hsel : selectNext (s.messages.map (sweepOne (some d) now)) d now with
    | none =>
      show { m with state := MsgState.expired } ∈ s.messages.map (sweepOne (some d) now)
      exact h1
    | some row =>
      show { m with state := MsgState.expired } ∈
        markDelivered row.message_id (s.messages.map (sweepOne (some d) now))
      have h2 : deliverOne row.message_id { m with state := MsgState.expired } =
          { m with state := MsgState.expired } := deliverOne_of_not_queued (by simp)
      have h3 := List.mem_map_of_mem (deliverOne row.message_id) h1
      rw [h2] at h3
      exact h3

/-- A store with device `dev1` and a queued message `mOld` for it whose
expiry 40 has already passed by time 50. -/
def c5S : ServerState :=
  { devices := [{ device_id := "dev1", name := "n", device_token := "tok",
                  paired_at := 0, last_seen_at := none }],
    pairing_codes := [],
    messages := [{ message_id := "mOld", device_id := "dev1", type := MsgType.tts,
                   text := some "stale", audio_blob_key := none,
                   priority := Priority.normal, created_at := 0, expires_at := 40,
                   state := MsgState.queued, details := none }],
    audio_blobs := [] }

/-- Witness for `c5_expired_queued_swept` at the concrete store `c5S` and
time 50. -/
theorem c5_expired_queued_swept_witness :
    (messages_next "dev1" 50 c5S).2 ≠
      some { message_id := "mOld", device_id := "dev1", type := MsgType.tts,
             text := some "stale", audio_blob_key := none, priority := Priority.normal,
             created_at := 0, expires_at := 40, state := MsgState.queued,
             details := none } ∧
    ({ message_id := "mOld", device_id := "dev1", type := MsgType.tts,
       text := some "stale", audio_blob_key := none, priority := Priority.normal,
       created_at := 0, expires_at := 40, state := MsgState.expired,
       details := none } : Message) ∈ (messages_next "dev1" 50 c5S).1.messages :=
  c5_expired_queued_swept c5S "dev1" 50
    { message_id := "mOld", device_id := "dev1", type := MsgType.tts,
      text := some "stale", audio_blob_key := none, priority := Priority.normal,
      created_at := 0, expires_at := 40, state := MsgState.queued, details := none }
    (by decide) (by decide) (by decide) (by decide)

/-! ### C6: FIFO per device, independent of priority -/

/-- C6.  With the device's pending queue consisting of exactly two
queued unexpired messages A and B (of arbitrary priorities) where A was
created strictly earlier, two successive `FetchNext` calls return A first
and then B: the selection orders by `created_at` alone and never consults
`priority`. -/
theorem c6_fifo_per_device (s : ServerState) (d : String) (A B : Message)
    (now1 now2 : Nat)
    (hA : A ∈ s.messages) (hB : B ∈ s.messages)
    (hdA : A.device_id = d) (hdB : B.device_id = d)
    (hsA : A.state = MsgState.queued) (hsB : B.state = MsgState.queued)
    (hcr : A.created_at < B.created_at)
    (hids : ¬ A.message_id = B.message_id)
    (h12 : now1 ≤ now2)
    (heA : now2 < A.expires_at) (heB : now2 < B.expires_at)
    (honly : ∀ m ∈ s.messages, m.device_id = d → m.state = MsgState.queued →
      m = A ∨ m = B) :
    (messages_next d now1 s).2 = some A ∧
    (messages_next d now2 (messages_next d now1 s).1).2 = some B := by
  have hswA1 : sweepOne (some d) now1 A = A :=
    sweepOne_of_not_expired (Nat.lt_of_le_of_lt h12 heA)
  have hswB1 : sweepOne (some d) now1 B = B :=
    sweepOne_of_not_expired (Nat.lt_of_le_of_lt h12 heB)
  have hA1 : A ∈ s.messages.map (sweepOne (some d) now1) := by
    have := List.mem_map_of_mem (sweepOne (some d) now1) hA
    rwa [hswA1] at this
  have helA1 : eligibleForFetch d now1 A = true :=
    eligible_iff.mpr ⟨hdA, hsA, Nat.lt_of_le_of_lt h12 heA⟩
  have honly1 : ∀ x ∈ s.messages.map (sweepOne (some d) now1),
      eligibleForFetch d now1 x = true → x = A ∨ x = B := by
    intro x hx hel
    obtain ⟨x0, hx0, hxe⟩ := List.mem_map.mp hx
    obtain ⟨hxd, hxq, _⟩ := eligible_iff.mp hel
    have hfix : sweepOne (some d) now1 x0 = x0 :=
      sweepOne_queued (by rw [hxe]; exact hxq)
    rw [hfix] at hxe
    subst hxe
    exact honly x0 hx0 hxd hxq
  have hsel1 : selectNext (s.messages.map (sweepOne (some d) now1)) d now1 = some A :=
    selectNext_pair hA1 helA1 hcr honly1
  have hstep1 := messages_next_eq_some hsel1
  have hc1 : (messages_next d now1 s).2 = some A := by rw [hstep1]
  refine ⟨hc1, ?_⟩
  have h1s : (messages_next d now1 s).1 =
      { s with messages :=
          markDelivered A.message_id (s.messages.map (sweepOne (some d) now1)) } := by
    rw [hstep1]
  rw [h1s, messages_next_snd]
  show selectNext
      ((markDelivered A.message_id (s.messages.map (sweepOne (some d) now1))).map
        (sweepOne (some d) now2)) d now2 = some B
  have hBne : ¬ B.message_id = A.message_id := fun h => hids h.symm
  have hB2 : B ∈ markDelivered A.message_id (s.messages.map (sweepOne (some d) now1)) := by
    have h1 : B ∈ s.messages.map (sweepOne (some d) now1) := by
      have := List.mem_map_of_mem (sweepOne (some d) now1) hB
      rwa [hswB1] at this
    have h2 := List.mem_map_of_mem (deliverOne A.message_id) h1
    rwa [deliverOne_of_ne hBne] at h2
  have hB3 : B ∈ (markDelivered A.message_id
      (s.messages.map (sweepOne (some d) now1))).map (sweepOne (some d) now2) := by
    have := List.mem_map_of_mem (sweepOne (some d) now2) hB2
    rwa [sweepOne_of_not_expired heB] at this
  have helB2 : eligibleForFetch d now2 B = true := eligible_iff.mpr ⟨hdB, hsB, heB⟩
  apply selectNext_unique hB3 helB2
  intro x hx hel
  obtain ⟨x1, hx1, hxe1⟩ := List.mem_map.mp hx
  obtain ⟨hxd, hxq, _⟩ := eligible_iff.mp hel
  have hfix1 : sweepOne (some d) now2 x1 = x1 :=
    sweepOne_queued (by rw [hxe1]; exact hxq)
  rw [hfix1] at hxe1
  subst hxe1
  obtain ⟨x2, hx2, hxe2⟩ := List.mem_map.mp hx1
  have hfix2 : deliverOne A.message_id x2 = x2 :=
    deliverOne_queued (by rw [hxe2]; exact hxq)
  rw [hfix2] at hxe2
  subst hxe2
  obtain ⟨x3, hx3, hxe3⟩ := List.mem_map.mp hx2
  have hfix3 : sweepOne (some d) now1 x3 = x3 :=
    sweepOne_queued (by rw [hxe3]; exact hxq)
  rw [hfix3] at hxe3
  subst hxe3
  rcases honly x3 hx3 hxd hxq with h | h
  · subst h
    have hdel : (deliverOne x3.message_id x3).state = MsgState.delivered := by
      unfold deliverOne
      rw [if_pos ⟨rfl, hxq⟩]
    rw [hfix2, hxq] at hdel
    exact absurd hdel (by simp)
  · exact h

/-- A store with device `dev1` and exactly two queued messages: `mA`
(created at 1, priority normal) and `mB` (created at 2, priority urgent). -/
def c6S : ServerState :=
  { devices := [{ device_id := "dev1", name := "n", device_token := "tok",
                  paired_at := 0, last_seen_at := none }],
    pairing_codes := [],
    messages := [{ message_id := "mA", device_id := "dev1", type := MsgType.tts,
                   text := some "first", audio_blob_key := none,
                   priority := Priority.normal, created_at := 1, expires_at := 500,
                   state := MsgState.queued, details := none },
                 { message_id := "mB", device_id := "dev1", type := MsgType.tts,
                   text := some "second", audio_blob_key := none,
                   priority := Priority.urgent, created_at := 2, expires_at := 500,
                   state := MsgState.queued, details := none }],
    audio_blobs := [] }

/-- Witness for `c6_fifo_per_device` at the concrete store `c6S`: the
normal-priority `mA` (older) is served before the urgent `mB`. -/
theorem c6_fifo_per_device_witness :
    (messages_next "dev1" 10 c6S).2 =
      some { message_id := "mA", device_id := "dev1", type := MsgType.tts,
             text := some "first", audio_blob_key := none,
             priority := Priority.normal, created_at := 1, expires_at := 500,
             state := MsgState.queued, details := none } ∧
    (messages_next "dev1" 11 (messages_next "dev1" 10 c6S).1).2 =
      some { message_id := "mB", device_id := "dev1", type := MsgType.tts,
             text := some "second", audio_blob_key := none,
             priority := Priority.urgent, created_at := 2, expires_at := 500,
             state := MsgState.queued, details := none } :=
  c6_fifo_per_device c6S "dev1"
    { message_id := "mA", device_id := "dev1", type := MsgType.tts,
      text := some "first", audio_blob_key := none, priority := Priority.normal,
      created_at := 1, expires_at := 500, state := MsgState.queued, details := none }
    { message_id := "mB", device_id := "dev1", type := MsgType.tts,
      text := some "second", audio_blob_key := none, priority := Priority.urgent,
      created_at := 2, expires_at := 500, state := MsgState.queued, details := none }
    10 11
    (by decide) (by decide) (by decide) (by decide) (by decide) (by decide)
    (by decide) (by decide) (by decide) (by decide) (by decide)
    (by decide)

/-! ### C4: enqueue then fetch delivers exactly once -/

theorem notQueued_preserved (d mid : String) (now : Nat) (s : ServerState)
    (hinv : ∀ m ∈ s.messages, m.message_id = mid → ¬ m.state = MsgState.queued) :
    ∀ m ∈ (messages_next d now s).1.messages,
      m.message_id = mid → ¬ m.state = MsgState.queued := by
  obtain ⟨g, hmsgs, hgid, _, hgq⟩ := messages_next_fst_messages d now s
  rw [hmsgs]
  intro m hm hid hq
  obtain ⟨x, hx, hxe⟩ := List.mem_map.mp hm
  have hfix := hgq x (by rw [hxe]; exact hq)
  rw [hfix] at hxe
  subst hxe
  exact hinv x hx hid hq

theorem fetch_never_returns_nonqueued (d mid : String) :
    ∀ (times : List Nat) (s : ServerState),
      (∀ m ∈ s.messages, m.message_id = mid → ¬ m.state = MsgState.queued) →
      ∀ r ∈ fetchResults d s times, ∀ mm, r = some mm → ¬ mm.message_id = mid := by
  intro times
  induction times with
  | nil =>
    intro s _ r hr
    exact absurd hr (by simp [fetchResults])
  | cons now rest ih =>
    intro s hinv r hr
    simp only [fetchResults] at hr
    rcases List.mem_cons.mp hr with h | h
    · subst h
      intro mm hmm hid
      rw [messages_next_snd] at hmm
      obtain ⟨hmem, hel⟩ := selectNext_mem_eligible hmm
      obtain ⟨_, hq, _⟩ := eligible_iff.mp hel
      obtain ⟨x, hx, hxe⟩ := List.mem_map.mp hmem
      have hfix := sweepOne_queued (by rw [hxe]; exact hq)
      rw [hfix] at hxe
      subst hxe
      exact hinv x hx hid hq
    · exact ih (messages_next d now s).1 (notQueued_preserved d mid now s hinv) r h

/-- C4.  For every valid TTL t in (0, 86400], enqueueing a message for a
device whose pending queue is empty and fetching before t seconds have
elapsed (with no other operations interleaved) returns exactly that message,
whose persisted state becomes `delivered`; every later sequence of
`FetchNext` calls for the device never returns it again. -/
theorem c4_enqueue_fetch_exactly_once (s : ServerState) (d : String)
    (req : EnqueueMessageRequest) (mid : String) (t : Int) (now1 now2 : Nat)
    (hdev : getDevice s d ≠ none) (hpe : payloadError s req = none)
    (hexp : req.expiresAt = none)
    (httl : ttlOf req = t) (h0 : 0 < t) (h86 : t ≤ 86400)
    (hnoq : ∀ m ∈ s.messages, m.device_id = d → ¬ m.state = MsgState.queued)
    (hfresh : ∀ m ∈ s.messages, ¬ m.message_id = mid)
    (h12 : now1 ≤ now2) (hbefore : now2 < now1 + t.toNat) :
    ∃ s1, enqueue_message d req mid now1 s = .ok (s1, mid, now1 + t.toNat) ∧
      ∃ s2, messages_next d now2 s1 =
          (s2, some (newMessage d req mid now1 (now1 + t.toNat))) ∧
        (∀ m ∈ s2.messages, m.message_id = mid → m.state = MsgState.delivered) ∧
        ∀ times r, r ∈ fetchResults d s2 times →
          ∀ mm, r = some mm → ¬ mm.message_id = mid := by
  have henq := @enqueue_ok_ttl s d req mid now1 hdev hpe hexp
    (by rw [httl]; exact h0) (by rw [httl]; exact h86)
  rw [httl] at henq
  refine ⟨_, henq, ?_⟩
  set N := newMessage d req mid now1 (now1 + t.toNat) with hN
  have hNid : N.message_id = mid := rfl
  have hNd : N.device_id = d := rfl
  have hNst : N.state = MsgState.queued := rfl
  have hNexp : N.expires_at = now1 + t.toNat := rfl
  set s1 : ServerState := { s with messages := s.messages ++ [N] } with hs1
  have hswN : sweepOne (some d) now2 N = N :=
    sweepOne_of_not_expired (by rw [hNexp]; exact hbefore)
  have hNmem : N ∈ s1.messages.map (sweepOne (some d) now2) := by
    have hN1 : N ∈ s1.messages := by
      rw [hs1]
      exact List.mem_append_right _ (List.mem_cons_self N [])
    have := List.mem_map_of_mem (sweepOne (some d) now2) hN1
    rwa [hswN] at this
  have helN : eligibleForFetch d now2 N = true :=
    eligible_iff.mpr ⟨hNd, hNst, by rw [hNexp]; exact hbefore⟩
  have honly2 : ∀ x ∈ s1.messages.map (sweepOne (some d) now2),
      eligibleForFetch d now2 x = true → x = N := by
    intro x hx hel
    obtain ⟨x0, hx0, hxe⟩ := List.mem_map.mp hx
    obtain ⟨hxd, hxq, _⟩ := eligible_iff.mp hel
    have hfix : sweepOne (some d) now2 x0 = x0 :=
      sweepOne_queued (by rw [hxe]; exact hxq)
    rw [hfix] at hxe
    subst hxe
    rw [hs1] at hx0
    rcases List.mem_append.mp hx0 with hx0 | hx0
    · exact absurd hxq (hnoq x0 hx0 hxd)
    · rw [List.mem_singleton.mp hx0]
  have hsel : selectNext (s1.messages.map (sweepOne (some d) now2)) d now2 = some N :=
    selectNext_unique hNmem helN honly2
  have hstep := messages_next_eq_some hsel
  rw [hNid] at hstep
  refine ⟨_, hstep, ?_, ?_⟩
  · intro m hm hid
    obtain ⟨x1, hx1, hxe1⟩ := List.mem_map.mp hm
    obtain ⟨x0, hx0, hxe0⟩ := List.mem_map.mp hx1
    rw [hs1] at hx0
    rcases List.mem_append.mp hx0 with hx0 | hx0
    · exfalso
      apply hfresh x0 hx0
      rw [← hid, ← hxe1, ← hxe0, deliverOne_message_id, sweepOne_message_id]
    · rw [List.mem_singleton.mp hx0] at hxe0
      rw [hswN] at hxe0
      rw [← hxe0] at hxe1
      have hdel : deliverOne mid N = { N with state := MsgState.delivered } := by
        unfold deliverOne
        rw [if_pos ⟨hNid, hNst⟩]
      rw [hdel] at hxe1
      rw [← hxe1]
  · intro times
    apply fetch_never_returns_nonqueued d mid times
    intro m hm hid
    obtain ⟨x1, hx1, hxe1⟩ := List.mem_map.mp hm
    obtain ⟨x0, hx0, hxe0⟩ := List.mem_map.mp hx1
    rw [hs1] at hx0
    rcases List.mem_append.mp hx0 with hx0 | hx0
    · exfalso
      apply hfresh x0 hx0
      rw [← hid, ← hxe1, ← hxe0, deliverOne_message_id, sweepOne_message_id]
    · rw [List.mem_singleton.mp hx0] at hxe0
      rw [hswN] at hxe0
      rw [← hxe0] at hxe1
      have hdel : deliverOne mid N = { N with state := MsgState.delivered } := by
        unfold deliverOne
        rw [if_pos ⟨hNid, hNst⟩]
      rw [hdel] at hxe1
      rw [← hxe1]
      simp

/-- Witness for `c4_enqueue_fetch_exactly_once`: at the store `c7S` (empty
queue for `dev1`), a tts message with TTL 600 enqueued at time 10 and
fetched at time 20. -/
theorem c4_enqueue_fetch_exactly_once_witness :
    ∃ s1, enqueue_message "dev1" c7req "mZ" 10 c7S =
        .ok (s1, "mZ", 10 + (600 : Int).toNat) ∧
      ∃ s2, messages_next "dev1" 20 s1 =
          (s2, some (newMessage "dev1" c7req "mZ" 10 (10 + (600 : Int).toNat))) ∧
        (∀ m ∈ s2.messages, m.message_id = "mZ" → m.state = MsgState.delivered) ∧
        ∀ times r, r ∈ fetchResults "dev1" s2 times →
          ∀ mm, r = some mm → ¬ mm.message_id = "mZ" :=
  c4_enqueue_fetch_exactly_once c7S "dev1" c7req "mZ" 600 10 20
    (by decide) (by decide) (by decide) (by decide) (by decide) (by decide)
    (by decide) (by decide) (by decide) (by decide)

end HeadphonePager
